import Mathlib

/-!
# Verification of the `mari` ordered array mapped trie

A shallow embedding, in Lean 4, of the core algorithms of the `mari`
embedded key/value store (a 256-ary ordered array mapped trie over a
memory-mapped append-only file), together with theorems settling the
claims of the specification against the code.

Conventions of the embedding:

* Go `byte` values are `Nat`s; where Go's 8-bit wrap-around matters the
  embedding computes modulo 256 explicitly.
* Go `uint32` bitmap words are `Nat`s; every operation the source
  performs on them (`^`, `&`, `<<`, popcount of the 32 bits) preserves
  the `< 2^32` range, so no explicit truncation is required.
* Go `uint64` metadata words are `Nat`s reduced modulo `2^64` exactly
  where the source's unsigned arithmetic can wrap.
* Keys and values (`[]byte`) are `List Nat`; a `nil` slice that the
  source distinguishes from a present slice is an `Option (List Nat)`
  with `none` for `nil`.
* A Go runtime panic (out-of-range slice index, nil-pointer
  dereference) is modelled by propagating `none` through an `Option`
  result.
* Recursive operations take an explicit `fuel` argument, returning
  `none` when it runs out; claims about concrete executions are stated
  at a fuel large enough that exhaustion cannot be the cause of `none`.
-/

namespace Mari

/-! ## Bitmap utilities (src/Utils.go) -/

/-- `calculateHammingWeight` (src/Utils.go:29, `bits.OnesCount32`): number of
set bits among the 32 bits of a `uint32` word. -/
def calculateHammingWeight (bitmap : Nat) : Nat :=
  (List.range 32).foldl (fun acc i => acc + (bitmap >>> i) % 2) 0

/-- The 256-bit bitmap of an internal node: eight `uint32` words
(`[8]uint32` in src/Types.go). -/
structure Bitmap where
  w0 : Nat
  w1 : Nat
  w2 : Nat
  w3 : Nat
  w4 : Nat
  w5 : Nat
  w6 : Nat
  w7 : Nat
deriving DecidableEq, Repr

/-- The all-zero bitmap (`[8]uint32{0,...,0}`, the pool reset value). -/
def Bitmap.zero : Bitmap := ⟨0, 0, 0, 0, 0, 0, 0, 0⟩

/-- Go's `bitmap[i]` for `i ∈ [0,7]`; indices outside the array (which a
`byte` index shifted right by 5 can never produce) default to `0`. -/
def wordAt (b : Bitmap) : Nat → Nat
  | 0 => b.w0
  | 1 => b.w1
  | 2 => b.w2
  | 3 => b.w3
  | 4 => b.w4
  | 5 => b.w5
  | 6 => b.w6
  | _ => b.w7

/-- Go's `bitmap[i] = w` for `i ∈ [0,7]`; out-of-range indices write the
last word, mirroring `wordAt`'s totalization (unreachable for byte
indices). -/
def updateWord (b : Bitmap) : Nat → Nat → Bitmap
  | 0, w => { b with w0 := w }
  | 1, w => { b with w1 := w }
  | 2, w => { b with w2 := w }
  | 3, w => { b with w3 := w }
  | 4, w => { b with w4 := w }
  | 5, w => { b with w5 := w }
  | 6, w => { b with w6 := w }
  | _, w => { b with w7 := w }

/-- `populationCount` (src/Utils.go:109): total set bits across the
eight words, summed in the source's order `w7 + w6 + ... + w0`. -/
def populationCount (b : Bitmap) : Nat :=
  calculateHammingWeight b.w7 + calculateHammingWeight b.w6 +
  calculateHammingWeight b.w5 + calculateHammingWeight b.w4 +
  calculateHammingWeight b.w3 + calculateHammingWeight b.w2 +
  calculateHammingWeight b.w1 + calculateHammingWeight b.w0

/-- `isBitSet` (src/Utils.go:99): test bit `index & 0x1F` of word
`index >> 5`. -/
def isBitSet (bitmap : Bitmap) (index : Nat) : Bool :=
  let subBitmapIndex := index >>> 5
  let indexInSubBitmap := index &&& 0x1F
  let subBitmap := wordAt bitmap subBitmapIndex
  (subBitmap &&& (1 <<< indexInSubBitmap)) != 0

/-- `setBit` (src/Utils.go:128): XOR (toggle) bit `index & 0x1F` of word
`index >> 5`. -/
def setBit (bitmap : Bitmap) (index : Nat) : Bitmap :=
  let subBitmapIndex := index >>> 5
  let indexInSubBitmap := index &&& 0x1F
  updateWord bitmap subBitmapIndex
    (wordAt bitmap subBitmapIndex ^^^ (1 <<< indexInSubBitmap))

/-- `getPosition` (src/Utils.go:59): dense position of `index` inside
the sparse child array.  The guard `subBitmapIndex - 1 > 0` is Go `byte`
arithmetic, so `subBitmapIndex = 0` yields `255` (taking the switch with
no matching case, adding nothing) while `subBitmapIndex = 1` yields `0`
and skips the switch entirely.  The switch cases fall through, so case
`k` adds the popcounts of words `k` down to `0`.  The trailing `level`
parameter exists in the source signature and is unused, as there. -/
def getPosition (bitMap : Bitmap) (index : Nat) (level : Nat) : Nat :=
  let _ := level
  let subBitmapIndex := index >>> 5
  let indexInSubBitmap := index &&& 0x1F
  let subMinusOne := (subBitmapIndex + 255) % 256
  let precedingSubBitmapsCount :=
    if subMinusOne > 0 then
      match subMinusOne with
      | 6 => calculateHammingWeight (wordAt bitMap 6) +
             calculateHammingWeight (wordAt bitMap 5) +
             calculateHammingWeight (wordAt bitMap 4) +
             calculateHammingWeight (wordAt bitMap 3) +
             calculateHammingWeight (wordAt bitMap 2) +
             calculateHammingWeight (wordAt bitMap 1) +
             calculateHammingWeight (wordAt bitMap 0)
      | 5 => calculateHammingWeight (wordAt bitMap 5) +
             calculateHammingWeight (wordAt bitMap 4) +
             calculateHammingWeight (wordAt bitMap 3) +
             calculateHammingWeight (wordAt bitMap 2) +
             calculateHammingWeight (wordAt bitMap 1) +
             calculateHammingWeight (wordAt bitMap 0)
      | 4 => calculateHammingWeight (wordAt bitMap 4) +
             calculateHammingWeight (wordAt bitMap 3) +
             calculateHammingWeight (wordAt bitMap 2) +
             calculateHammingWeight (wordAt bitMap 1) +
             calculateHammingWeight (wordAt bitMap 0)
      | 3 => calculateHammingWeight (wordAt bitMap 3) +
             calculateHammingWeight (wordAt bitMap 2) +
             calculateHammingWeight (wordAt bitMap 1) +
             calculateHammingWeight (wordAt bitMap 0)
      | 2 => calculateHammingWeight (wordAt bitMap 2) +
             calculateHammingWeight (wordAt bitMap 1) +
             calculateHammingWeight (wordAt bitMap 0)
      | 1 => calculateHammingWeight (wordAt bitMap 1) +
             calculateHammingWeight (wordAt bitMap 0)
      | 0 => calculateHammingWeight (wordAt bitMap 0)
      | _ => 0
    else 0
  let subBitmap := wordAt bitMap subBitmapIndex
  let mask := (1 <<< indexInSubBitmap) - 1
  let isolatedBits := subBitmap &&& mask
  precedingSubBitmapsCount + calculateHammingWeight isolatedBits

/-- `getIndexForLevel` (src/Utils.go:48): `key[level]`.  Go panics when
`level ≥ len(key)`; the embedding returns `none` there. -/
def getIndexForLevel (key : List Nat) (level : Nat) : Option Nat :=
  key.get? level

/-- Dense position as the specification states it (spec §4.4, claim C5):
popcount of all set bits strictly below `index` — the popcounts of words
`0 .. (index>>5)-1` plus the popcount of word `index>>5` masked by
`(1 << (index&31)) - 1`.  Stated from the spec's words, for comparison
with `getPosition` above. -/
def specDensePosition (bitMap : Bitmap) (index : Nat) : Nat :=
  let word := index >>> 5
  let bit := index &&& 0x1F
  ((List.range word).foldl (fun acc j => acc + calculateHammingWeight (wordAt bitMap j)) 0) +
  calculateHammingWeight (wordAt bitMap word &&& ((1 <<< bit) - 1))

/-! ## Byte-slice comparison -/

/-- Go `bytes.Compare`: lexicographic comparison of byte slices,
returned as an `Ordering` (`.lt`, `.eq`, `.gt` for `-1`, `0`, `1`). -/
def bytesCompare : List Nat → List Nat → Ordering
  | [], [] => .eq
  | [], _ :: _ => .lt
  | _ :: _, [] => .gt
  | a :: as, b :: bs =>
    if a < b then .lt else if b < a then .gt else bytesCompare as bs

/-! ## Node model (src/Types.go)

In-memory nodes.  The source's `Children []*MariINode` is a slice of
pointers that can hold `nil`, so children are `List (Option MariINode)`
with `none` for a nil pointer; dereferencing a nil pointer (a Go panic)
propagates `none` through the `Option` result of the operation.  The
source's file offsets resolve, through `readINodeFromMemMap`, to the
node serialized at that offset; the embedding keeps the tree
materialized, so a child entry *is* the node its offset designates. -/

/-- `MariLNode` (src/Types.go:45): a leaf node. -/
structure MariLNode where
  version : Nat
  startOffset : Nat
  endOffset : Nat
  keyLength : Nat
  key : List Nat
  value : List Nat
deriving DecidableEq, Repr

/-- `MariINode` (src/Types.go:29): an internal node. -/
inductive MariINode where
  | mk (version startOffset endOffset : Nat) (bitmap : Bitmap)
       (leaf : MariLNode) (children : List (Option MariINode)) : MariINode
deriving Repr

def MariINode.version : MariINode → Nat
  | .mk v _ _ _ _ _ => v

def MariINode.startOffset : MariINode → Nat
  | .mk _ s _ _ _ _ => s

def MariINode.endOffset : MariINode → Nat
  | .mk _ _ e _ _ _ => e

def MariINode.bitmap : MariINode → Bitmap
  | .mk _ _ _ b _ _ => b

def MariINode.leaf : MariINode → MariLNode
  | .mk _ _ _ _ l _ => l

def MariINode.children : MariINode → List (Option MariINode)
  | .mk _ _ _ _ _ c => c

/-- Rebuild an internal node with some fields replaced (the record
update notation is unavailable for a single-constructor inductive). -/
def MariINode.withFields (n : MariINode) (version : Nat) (bitmap : Bitmap)
    (leaf : MariLNode) (children : List (Option MariINode)) : MariINode :=
  .mk version n.startOffset n.endOffset bitmap leaf children

/-- `KeyValuePair` (src/Types.go:61). -/
structure KeyValuePair where
  version : Nat
  key : List Nat
  value : List Nat
deriving DecidableEq, Repr

/-- The pool-reset leaf (`resetLNode`): all fields zero / nil. -/
def resetLNode : MariLNode := ⟨0, 0, 0, 0, [], []⟩

/-- The pool-reset internal node (`resetINode`): zero fields, reset
leaf, empty child array. -/
def resetINode : MariINode := .mk 0 0 0 Bitmap.zero resetLNode []

/-- `newLeafNode` (src/Node.go:202): fresh pool leaf with the version,
`KeyLength = uint16(len(key))`, key and value set. -/
def newLeafNode (key value : List Nat) (version : Nat) : MariLNode :=
  { resetLNode with
      version := version
      keyLength := key.length % 65536
      key := key
      value := value }

/-- `newInternalNode` (src/Node.go:192): fresh pool node tagged with the
version. -/
def newInternalNode (version : Nat) : MariINode :=
  .mk version 0 0 Bitmap.zero resetLNode []

/-- `copyINode` (src/Node.go:121): a pool node receives the source
node's version, bitmap, leaf and (a copy of) the child array; the
offsets keep the pool-reset value `0`. -/
def copyINode (node : MariINode) : MariINode :=
  .mk node.version 0 0 node.bitmap node.leaf node.children

/-- `getChildNode` (src/Operation.go:387): when the child's version
matches the path's version the in-memory child is used directly;
otherwise the node is read from the memory map at the child's offset.
In the materialized model the node at that offset is the child itself,
so both branches yield the child. -/
def getChildNode (childOffset : MariINode) (version : Nat) : MariINode :=
  if childOffset.version == version then childOffset else childOffset

/-! ## Child-table resizing (src/Utils.go) -/

/-- Go `copy(dst[start:], src)` over a materialized destination list:
entry `i ≥ start` becomes `src[i - start]` when that exists. -/
def copyInto (dst : List α) (start : Nat) (src : List α) : List α :=
  dst.enum.map fun p =>
    if start ≤ p.1 then
      match src.get? (p.1 - start) with
      | some b => b
      | none => p.2
    else p.2

/-- `extendTable` (src/Utils.go:35): allocate `popcount(bitmap)` slots,
copy `orig[:pos]`, place the new node at `pos`, copy `orig[pos:]` after
it.  The slice expressions and the write at `pos` panic (`none`) when
`pos` exceeds the lengths involved. -/
def extendTable (orig : List (Option MariINode)) (bitmap : Bitmap)
    (pos : Nat) (newNode : MariINode) : Option (List (Option MariINode)) :=
  let tableSize := populationCount bitmap
  if pos ≤ orig.length ∧ pos < tableSize then
    let newTable : List (Option MariINode) := List.replicate tableSize none
    let t1 := copyInto newTable 0 (orig.take pos)
    let t2 := t1.set pos (some newNode)
    some (copyInto t2 (pos + 1) (orig.drop pos))
  else none

/-- `shrinkTable` (src/Utils.go:139): allocate `popcount(bitmap)` slots,
copy `orig[:pos]`, then `orig[pos+1:]`.  The slice `orig[pos+1:]`
panics (`none`) when `pos + 1` exceeds `len(orig)`, and `newTable[pos:]`
when `pos` exceeds the new size. -/
def shrinkTable (orig : List (Option MariINode)) (bitmap : Bitmap)
    (pos : Nat) : Option (List (Option MariINode)) :=
  let tableSize := populationCount bitmap
  if pos + 1 ≤ orig.length ∧ pos ≤ tableSize then
    let newTable : List (Option MariINode) := List.replicate tableSize none
    let t1 := copyInto newTable 0 (orig.take pos)
    some (copyInto t1 pos (orig.drop (pos + 1)))
  else none

/-! ## Trie operations (src/Operation.go)

The source's `compareAndSwap` on a node pointer always succeeds in a
single-threaded execution (no other thread touches the freshly stored
pointer), so an operation's effect is the node copy it installs; the
embedding returns that node.  `fuel` bounds the recursion depth;
`none` models both fuel exhaustion and a Go runtime panic. -/

/-- `putRecursive` (src/Operation.go:73), including the local
`putNewINode` closure (line 80): path-copy insert of `key ↦ value` at
`level`, returning the node copy the CAS installs. -/
def putRecursive (fuel : Nat) (node : MariINode) (key value : List Nat)
    (level : Nat) : Option MariINode :=
  match fuel with
  | 0 => none
  | fuel + 1 =>
    let currNode := node
    let nc0 := copyINode currNode
    let nodeCopy := nc0.withFields nc0.version nc0.bitmap
      { nc0.leaf with version := nc0.version } nc0.children
    -- putNewINode: set the bit, create a fresh internal node, put the
    -- pair into it, and extend the child table at the dense position.
    let putNewINode := fun (node : MariINode) (currIdx : Nat) (uKey uVal : List Nat) =>
      let bm := setBit node.bitmap currIdx
      let pos := getPosition bm currIdx level
      let newINode := newInternalNode node.version
      match putRecursive fuel newINode uKey uVal (level + 1) with
      | none => none
      | some updatedINode =>
        match extendTable node.children bm pos updatedINode with
        | none => none
        | some tbl => some (node.withFields node.version bm node.leaf tbl)
    if key.length == level then
      if nodeCopy.leaf.key == key then
        if nodeCopy.leaf.value == value then some nodeCopy
        else some (nodeCopy.withFields nodeCopy.version nodeCopy.bitmap
          (newLeafNode key value nodeCopy.version) nodeCopy.children)
      else
        let currentLeaf := nodeCopy.leaf
        let nodeCopy := nodeCopy.withFields nodeCopy.version nodeCopy.bitmap
          (newLeafNode key value nodeCopy.version) nodeCopy.children
        if currentLeaf.key.length > key.length then
          match getIndexForLevel currentLeaf.key level with
          | none => none
          | some idx =>
            if !isBitSet nodeCopy.bitmap idx then
              putNewINode nodeCopy idx currentLeaf.key currentLeaf.value
            else some nodeCopy
        else some nodeCopy
    else
      match getIndexForLevel key level with
      | none => none
      | some index =>
        if !isBitSet nodeCopy.bitmap index then
          if level > 0 then
            let popCount := populationCount nodeCopy.bitmap
            let currentLeaf := nodeCopy.leaf
            if currentLeaf.key == key then
              if currentLeaf.value == value then some nodeCopy
              else some (nodeCopy.withFields nodeCopy.version nodeCopy.bitmap
                (newLeafNode key value nodeCopy.version) nodeCopy.children)
            else if currentLeaf.key.length == 0 && popCount == 0 then
              some (nodeCopy.withFields nodeCopy.version nodeCopy.bitmap
                (newLeafNode key value nodeCopy.version) nodeCopy.children)
            else if currentLeaf.key.length == 0 && popCount > 0 then
              putNewINode nodeCopy index key value
            else if key.length > currentLeaf.key.length && currentLeaf.key.length > 0 then
              putNewINode nodeCopy index key value
            else if currentLeaf.key.length > key.length then
              let nodeCopy := nodeCopy.withFields nodeCopy.version nodeCopy.bitmap
                (newLeafNode key value nodeCopy.version) nodeCopy.children
              match getIndexForLevel currentLeaf.key level with
              | none => none
              | some newIdx =>
                if !isBitSet nodeCopy.bitmap newIdx then
                  putNewINode nodeCopy newIdx currentLeaf.key currentLeaf.value
                else some nodeCopy
            else
              let nodeCopy := nodeCopy.withFields nodeCopy.version nodeCopy.bitmap
                (newLeafNode [] [] nodeCopy.version) nodeCopy.children
              match putNewINode nodeCopy index key value with
              | none => none
              | some nodeCopy =>
                match getIndexForLevel currentLeaf.key level with
                | none => none
                | some newIdx =>
                  if !isBitSet nodeCopy.bitmap newIdx then
                    putNewINode nodeCopy newIdx currentLeaf.key currentLeaf.value
                  else
                    let newPos := getPosition nodeCopy.bitmap newIdx level
                    match nodeCopy.children.get? newPos with
                    | none => none
                    | some none => none
                    | some (some childOffset) =>
                      let childNode := getChildNode childOffset nodeCopy.version
                      let childNode := childNode.withFields nodeCopy.version
                        childNode.bitmap childNode.leaf childNode.children
                      match putRecursive fuel childNode currentLeaf.key
                          currentLeaf.value (level + 1) with
                      | none => none
                      | some updatedCNode =>
                        some (nodeCopy.withFields nodeCopy.version nodeCopy.bitmap
                          nodeCopy.leaf
                          (nodeCopy.children.set newPos (some updatedCNode)))
          else
            putNewINode nodeCopy index key value
        else
          let pos := getPosition nodeCopy.bitmap index level
          match nodeCopy.children.get? pos with
          | none => none
          | some none => none
          | some (some childOffset) =>
            let childNode := getChildNode childOffset nodeCopy.version
            let childNode := childNode.withFields nodeCopy.version
              childNode.bitmap childNode.leaf childNode.children
            match putRecursive fuel childNode key value (level + 1) with
            | none => none
            | some c =>
              some (nodeCopy.withFields nodeCopy.version nodeCopy.bitmap
                nodeCopy.leaf (nodeCopy.children.set pos (some c)))

/-- `getRecursive` (src/Operation.go:223): snapshot lookup.  The outer
`Option` models abnormal termination (panic / fuel); the inner one is
the source's `nil` result for an absent key. -/
def getRecursive (fuel : Nat) (node : MariINode) (key : List Nat)
    (level : Nat) : Option (Option KeyValuePair) :=
  match fuel with
  | 0 => none
  | fuel + 1 =>
    let currNode := node
    let getKeyVal : Option KeyValuePair :=
      some ⟨currNode.leaf.version, currNode.leaf.key, currNode.leaf.value⟩
    if key.length == level then
      if key == currNode.leaf.key then some getKeyVal else some none
    else
      if key == currNode.leaf.key then some getKeyVal
      else
        match getIndexForLevel key level with
        | none => none
        | some index =>
          if !isBitSet currNode.bitmap index then some none
          else
            let pos := getPosition currNode.bitmap index level
            match currNode.children.get? pos with
            | none => none
            | some none => none
            | some (some childOffset) =>
              getRecursive fuel childOffset key (level + 1)

/-- `deleteRecursive` (src/Operation.go:318): path-copy delete,
returning the node copy the CAS installs (or the unchanged node when
the source returns without a CAS). -/
def deleteRecursive (fuel : Nat) (node : MariINode) (key : List Nat)
    (level : Nat) : Option MariINode :=
  match fuel with
  | 0 => none
  | fuel + 1 =>
    let currNode := node
    let nodeCopy := copyINode currNode
    let deleteKeyVal := nodeCopy.withFields nodeCopy.version nodeCopy.bitmap
      (newLeafNode [] [] nodeCopy.version) nodeCopy.children
    if key.length == level then
      if nodeCopy.leaf.key == key then some deleteKeyVal else some currNode
    else
      match getIndexForLevel key level with
      | none => none
      | some index =>
        if nodeCopy.leaf.key == key then some deleteKeyVal
        else
          let pos := getPosition nodeCopy.bitmap index level
          match nodeCopy.children.get? pos with
          | none => none
          | some none => none
          | some (some childOffset) =>
            let childNode := getChildNode childOffset nodeCopy.version
            let childNode := childNode.withFields nodeCopy.version
              childNode.bitmap childNode.leaf childNode.children
            match deleteRecursive fuel childNode key (level + 1) with
            | none => none
            | some updatedChildNode =>
              let nodeCopy := nodeCopy.withFields nodeCopy.version
                nodeCopy.bitmap nodeCopy.leaf
                (nodeCopy.children.set pos (some updatedChildNode))
              if updatedChildNode.leaf.version == nodeCopy.version then
                if populationCount updatedChildNode.bitmap == 0 then
                  let bm := setBit nodeCopy.bitmap index
                  match shrinkTable nodeCopy.children bm pos with
                  | none => none
                  | some tbl =>
                    some (nodeCopy.withFields nodeCopy.version bm
                      nodeCopy.leaf tbl)
                else some nodeCopy
              else some nodeCopy

/-! ## Range (src/Range.go, revision at lines 14–112) -/

/-- `rangeRecursive` (src/Range.go:14): ordered scan between
`startKey` and `endKey` (`none` = Go `nil`).  At positive levels the
node's own leaf is emitted subject to the frontier checks; at level 0
the child scan is restricted to the dense positions of the two key
heads.  Go's `children[start:end]` slice panics when the bounds are out
of order or beyond the array, modelled by `none`. -/
def rangeRecursive (fuel : Nat) (node : MariINode) (minVersion : Nat)
    (startKey endKey : Option (List Nat)) (level : Nat)
    (transform : KeyValuePair → KeyValuePair) : Option (List KeyValuePair) :=
  match fuel with
  | 0 => none
  | fuel + 1 =>
    let currNode := node
    let genKeyValPair : KeyValuePair :=
      ⟨currNode.leaf.version, currNode.leaf.key, currNode.leaf.value⟩
    -- after the header: scan children[startKeyPos:endKeyPos]
    let cont := fun (sortedKvPairs : List KeyValuePair) (startKeyPos endKeyPos : Nat) =>
      if currNode.children.length > 0 then
        if startKeyPos == endKeyPos then
          match currNode.children.get? startKeyPos with
          | none => none
          | some none => none
          | some (some childOffset) =>
            let childNode := getChildNode childOffset currNode.version
            match rangeRecursive fuel childNode minVersion startKey endKey
                (level + 1) transform with
            | none => none
            | some kvPairs => some (sortedKvPairs ++ kvPairs)
        else
          if startKeyPos ≤ endKeyPos ∧ endKeyPos ≤ currNode.children.length then
            let slice := (currNode.children.drop startKeyPos).take (endKeyPos - startKeyPos)
            slice.enum.foldl
              (fun acc p =>
                match acc with
                | none => none
                | some sorted =>
                  match p.2 with
                  | none => none
                  | some childOffset =>
                    let childNode := getChildNode childOffset currNode.version
                    let res :=
                      if p.1 == 0 && startKey.isSome then
                        rangeRecursive fuel childNode minVersion startKey none
                          (level + 1) transform
                      else if p.1 == endKeyPos && endKey.isSome then
                        rangeRecursive fuel childNode minVersion none endKey
                          (level + 1) transform
                      else
                        rangeRecursive fuel childNode minVersion none none
                          (level + 1) transform
                    match res with
                    | none => none
                    | some kvPairs => some (sorted ++ kvPairs))
              (some sortedKvPairs)
          else none
      else some sortedKvPairs
    -- source switch default at a positive level
    let defaultCase := fun (_ : Unit) =>
      let sorted :=
        if minVersion ≤ currNode.leaf.version ∧ currNode.leaf.key.length > 0 then
          [transform genKeyValPair]
        else []
      cont sorted 0 currNode.children.length
    -- source switch second case (end-key frontier) at a positive level
    let endCase := fun (_ : Unit) =>
      match endKey with
      | some ek =>
        if ek.length > level then
          if minVersion ≤ currNode.leaf.version ∧
              bytesCompare currNode.leaf.key ek = .lt then
            match getIndexForLevel ek level with
            | none => none
            | some endKeyIndex =>
              cont [transform genKeyValPair] 0
                (getPosition currNode.bitmap endKeyIndex level)
          else some []
        else defaultCase ()
      | none => defaultCase ()
    if level > 0 then
      match startKey with
      | some sk =>
        if sk.length > level then
          if minVersion ≤ currNode.leaf.version ∧
              bytesCompare currNode.leaf.key sk = .gt then
            match getIndexForLevel sk level with
            | none => none
            | some startKeyIndex =>
              cont [transform genKeyValPair]
                (getPosition currNode.bitmap startKeyIndex level)
                currNode.children.length
          else some []
        else endCase ()
      | none => endCase ()
    else
      match startKey, endKey with
      | none, none => cont [] 0 currNode.children.length
      | _, _ =>
        match getIndexForLevel (startKey.getD []) 0 with
        | none => none
        | some startKeyIndex =>
          match getIndexForLevel (endKey.getD []) 0 with
          | none => none
          | some endKeyIndex =>
            cont [] (getPosition currNode.bitmap startKeyIndex 0)
              (getPosition currNode.bitmap endKeyIndex 0)

/-! ## Iterate (src/Iterate.go, revision at lines 15–99) -/

/-- The `for totalResults > len(acc) || currPos > len(children)` loop
of `iterateRecursive` (src/Iterate.go:73–95).  `recurse` is the
recursive descent into a child at the next level; note that the source
increments `startKeyPos`, not `currPos`, on each pass. -/
def iterateLoop (fuel : Nat) (currNode : MariINode)
    (startKey : Option (List Nat)) (totalResults : Nat)
    (acc : List KeyValuePair) (currPos startKeyPos : Nat)
    (recurse : MariINode → Option (List Nat) → List KeyValuePair →
      Option (List KeyValuePair)) : Option (List KeyValuePair) :=
  match fuel with
  | 0 => none
  | fuel + 1 =>
    if totalResults > acc.length || currPos > currNode.children.length then
      match currNode.children.get? currPos with
      | none => none
      | some none => none
      | some (some childOffset) =>
        let childNode := getChildNode childOffset currNode.version
        let res :=
          if currPos == startKeyPos && startKey.isSome then
            recurse childNode startKey acc
          else
            recurse childNode none acc
        match res with
        | none => none
        | some acc =>
          iterateLoop fuel currNode startKey totalResults acc currPos
            (startKeyPos + 1) recurse
    else some acc

/-- `iterateRecursive` (src/Iterate.go:38): cursor walk accumulating up
to `totalResults` pairs from `startKey` on.  At level 0 the child index
is computed unconditionally from `startKey[0]` (src/Iterate.go:68–71),
which for an empty start key is an out-of-range access (`none`). -/
def iterateRecursive (fuel : Nat) (node : MariINode) (minVersion : Nat)
    (startKey : Option (List Nat)) (totalResults level : Nat)
    (acc : List KeyValuePair) : Option (List KeyValuePair) :=
  match fuel with
  | 0 => none
  | fuel + 1 =>
    let currNode := node
    let genKeyValPair : KeyValuePair :=
      ⟨currNode.leaf.version, currNode.leaf.key, currNode.leaf.value⟩
    let recurse := fun (child : MariINode) (sk : Option (List Nat))
        (acc : List KeyValuePair) =>
      iterateRecursive fuel child minVersion sk totalResults (level + 1) acc
    let runLoop := fun (acc : List KeyValuePair) (startKeyPos : Nat) =>
      if currNode.children.length > 0 then
        iterateLoop fuel currNode startKey totalResults acc startKeyPos
          startKeyPos recurse
      else some acc
    let defaultCase := fun (acc : List KeyValuePair) =>
      let acc :=
        if minVersion ≤ currNode.leaf.version ∧ currNode.leaf.key.length > 0 then
          acc ++ [genKeyValPair]
        else acc
      runLoop acc 0
    if level > 0 then
      if totalResults == acc.length then some acc
      else
        match startKey with
        | some sk =>
          if sk.length > level then
            if minVersion ≤ currNode.leaf.version ∧
                bytesCompare currNode.leaf.key sk = .gt then
              let acc := acc ++ [genKeyValPair]
              match getIndexForLevel sk level with
              | none => none
              | some startKeyIndex =>
                runLoop acc (getPosition currNode.bitmap startKeyIndex level)
            else some acc
          else defaultCase acc
        | none => defaultCase acc
    else
      match getIndexForLevel (startKey.getD []) level with
      | none => none
      | some startKeyIdx =>
        runLoop acc (getPosition currNode.bitmap startKeyIdx level)

/-- `Iterate` (src/Iterate.go:15): resolve the optional minimum
version, start from the current root with an empty accumulator. -/
def iterate (fuel : Nat) (currRoot : MariINode) (startKey : List Nat)
    (totalResults : Nat) (minVersion : Option Nat) :
    Option (List KeyValuePair) :=
  let minV := match minVersion with | some v => v | none => 0
  let accumulator : List KeyValuePair := []
  iterateRecursive fuel currRoot minV (some startKey) totalResults 0 accumulator

/-! ## Transactions (src/unnamed/part_009, lines 93–259) -/

/-- `MariTx` (transaction over a working root; the `store` back pointer
is implicit in the operations). -/
structure MariTx where
  isWrite : Bool
  root : MariINode

/-- `newTx` (part_009:97): a view transaction gets `isWrite = false`. -/
def newTx (root : MariINode) (isWrite : Bool) : MariTx :=
  ⟨isWrite, root⟩

/-- `ViewTx` (part_009:109): materialize the published root and run the
body on a read-only transaction; the body's error (or success) is
returned as is and nothing is published. -/
def viewTx (currRoot : MariINode) (txOps : MariTx → Except String Unit) :
    Except String Unit :=
  txOps (newTx currRoot false)

/-- `MariTx.Put` (part_009:176): refuse on a read-only transaction,
otherwise path-copy into the working root. -/
def MariTx.put (fuel : Nat) (tx : MariTx) (key value : List Nat) :
    Except String MariTx :=
  if !tx.isWrite then
    .error "attempting to perform a write in a read only transaction, use tx.UpdateTx"
  else
    match putRecursive fuel tx.root key value 0 with
    | none => .error "error on put operation"
    | some r => .ok ⟨tx.isWrite, r⟩

/-- `MariTx.Delete` (part_009:200): refuse on a read-only transaction,
otherwise path-copy delete on the working root. -/
def MariTx.delete (fuel : Nat) (tx : MariTx) (key : List Nat) :
    Except String MariTx :=
  if !tx.isWrite then
    .error "attempting to perform a write in a read only transaction, use tx.UpdateTx"
  else
    match deleteRecursive fuel tx.root key 0 with
    | none => .error "error on delete operation"
    | some r => .ok ⟨tx.isWrite, r⟩

/-- `MariTx.Range` (part_009:241): error when `start > end`, otherwise
recursive ordered scan (identity transform when none is supplied). -/
def MariTx.range (fuel : Nat) (tx : MariTx) (startKey endKey : List Nat)
    (minVersion : Option Nat) : Except String (List KeyValuePair) :=
  if bytesCompare startKey endKey = .gt then
    .error "start key is larger than end key"
  else
    let minV := match minVersion with | some v => v | none => 0
    let transform : KeyValuePair → KeyValuePair := fun kvPair => kvPair
    match rangeRecursive fuel tx.root minV (some startKey) (some endKey) 0
        transform with
    | none => .error "error on range operation"
    | some kvPairs => .ok kvPairs

/-! ## Metadata and publication (src/unnamed/part_000 and part_009)

The three metadata words live at bytes 0..23 of the map and are read
and written through `loadMetaVersion` / `loadMetaRootOffset` /
`loadMetaEndSerialized` / `storeMetaPointer` (part_000).  The byte copy
of the serialized path (`writeNodesToMemMap`) can fail, and a resize
can be pending; both are environment conditions the publisher observes,
abstracted here as boolean parameters.  The serialized path is
abstracted by its version and byte length.  Arithmetic on the words is
Go `uint64`, hence modulo `2^64`. -/

/-- `MariMetaData` (src/Types.go:19). -/
structure MariMetaData where
  version : Nat
  rootOffset : Nat
  nextStartOffset : Nat
deriving DecidableEq, Repr

/-- `2^64`, the modulus of Go `uint64` arithmetic. -/
def U64 : Nat := 2 ^ 64

/-- `exclusiveWriteMmap`, revision at part_009 lines 571–621: observe
the metadata trio, CAS the version word from `V` to `path.Version`
(which must equal `V + 1`), store the new next-free word, copy the
bytes, then store the new root offset.  When the byte copy fails the
source re-stores `updatedMeta.NextStartOffset` — the *new* value — into
the next-free word (line 606) before restoring the version and the root
offset.  Returns the publish flag and the resulting metadata words. -/
def exclusiveWriteMmapA (isResizing resizeNeeded copyOk : Bool)
    (meta : MariMetaData) (pathVersion serializedLen : Nat) :
    Bool × MariMetaData :=
  if isResizing then (false, meta) else
  let version := meta.version
  let prevRootOffset := meta.rootOffset
  let endOffset := meta.nextStartOffset
  let newOffsetInMMap := endOffset
  let updatedMeta : MariMetaData :=
    ⟨pathVersion, newOffsetInMMap, (newOffsetInMMap + serializedLen) % U64⟩
  if resizeNeeded then (false, meta) else
  if version = (updatedMeta.version + (U64 - 1)) % U64 then
    -- CAS(versionPtr, version, updatedMeta.Version) succeeds in a
    -- sequential execution; next-free is stored before the byte copy.
    if copyOk then
      (true, ⟨updatedMeta.version, updatedMeta.rootOffset,
        updatedMeta.nextStartOffset⟩)
    else
      (false, ⟨version, prevRootOffset, updatedMeta.nextStartOffset⟩)
  else (false, meta)

/-- `exclusiveWriteMmap`, revision at part_009 lines 790–848: as the
other revision, plus the compaction trigger (`version ≥
compactAtVersion` refuses and signals the compactor), and a byte-copy
failure restores the originally observed `endOffset` into the
next-free word (line 831) along with the version and root offset. -/
def exclusiveWriteMmapB (isResizing resizeNeeded copyOk : Bool)
    (compactAtVersion : Nat) (meta : MariMetaData)
    (pathVersion serializedLen : Nat) : Bool × MariMetaData :=
  if isResizing then (false, meta) else
  let version := meta.version
  let prevRootOffset := meta.rootOffset
  let endOffset := meta.nextStartOffset
  let newOffsetInMMap := endOffset
  let updatedMeta : MariMetaData :=
    ⟨pathVersion, newOffsetInMMap, (newOffsetInMMap + serializedLen) % U64⟩
  if resizeNeeded then (false, meta) else
  if compactAtVersion ≤ version then (false, meta) else
  if version = (updatedMeta.version + (U64 - 1)) % U64 then
    if copyOk then
      (true, ⟨updatedMeta.version, updatedMeta.rootOffset,
        updatedMeta.nextStartOffset⟩)
    else
      (false, ⟨version, prevRootOffset, endOffset⟩)
  else (false, meta)

/-! ## Leaf serialization (src/Serialize.go, src/Node.go) -/

/-- Byte index of the key in a serialized leaf (`NodeKeyIdx`,
src/Types.go:136). -/
def NodeKeyIdx : Nat := 26

/-- `serializeUint64`: eight little-endian bytes. -/
def serializeUint64 (n : Nat) : List Nat :=
  [n % 256, n / 2 ^ 8 % 256, n / 2 ^ 16 % 256, n / 2 ^ 24 % 256,
   n / 2 ^ 32 % 256, n / 2 ^ 40 % 256, n / 2 ^ 48 % 256, n / 2 ^ 56 % 256]

/-- `serializeUint16`: two little-endian bytes. -/
def serializeUint16 (n : Nat) : List Nat :=
  [n % 256, n / 2 ^ 8 % 256]

/-- `determineEndOffsetLNode` (src/Node.go:157): last byte (inclusive)
of the serialized leaf: `start + 26 + keyLength + len(value) - 1` when
a key is present, else `start + 26 - 1`.  A `nil` key slice is the
empty list in the embedding. -/
def determineEndOffsetLNode (node : MariLNode) : Nat :=
  if node.key.length ≠ 0 then
    node.startOffset + (NodeKeyIdx + node.keyLength + node.value.length) - 1
  else
    node.startOffset + NodeKeyIdx - 1

/-- `serializeLNode` (src/Serialize.go:176): version, start offset,
freshly computed end offset, key length, then key and value bytes. -/
def serializeLNode (node : MariLNode) : List Nat :=
  let endOffset := determineEndOffsetLNode node
  serializeUint64 node.version ++ serializeUint64 node.startOffset ++
  serializeUint64 endOffset ++ serializeUint16 node.keyLength ++
  node.key ++ node.value

/-- `deserializeUint64` (src/Serialize.go:242): an eight-byte
little-endian word; any other length is an error (`none`). -/
def deserializeUint64 (data : List Nat) : Option Nat :=
  if data.length = 8 then
    some (data.foldr (fun b acc => acc * 256 + b % 256) 0)
  else none

/-- `deserializeUint16` (src/Serialize.go:264): a two-byte
little-endian word; any other length is an error (`none`). -/
def deserializeUint16 (data : List Nat) : Option Nat :=
  if data.length = 2 then
    some (data.foldr (fun b acc => acc * 256 + b % 256) 0)
  else none

/-- `DeserializeLNode` (src/Serialize.go:99): decode version, start
offset, end offset and key length from the fixed header, then
`key = snode[26 : 26+keyLength]` and `value = snode[26+keyLength :]` —
the value is the remainder of the frame.  Go's slice expressions panic
when the frame is too short, modelled by `none`. -/
def deserializeLNode (snode : List Nat) : Option MariLNode :=
  match deserializeUint64 ((snode.drop 0).take 8) with
  | none => none
  | some version =>
    match deserializeUint64 ((snode.drop 8).take 8) with
    | none => none
    | some startOffset =>
      match deserializeUint64 ((snode.drop 16).take 8) with
      | none => none
      | some endOffset =>
        match deserializeUint16 ((snode.drop 24).take 2) with
        | none => none
        | some keyLength =>
          if NodeKeyIdx + keyLength ≤ snode.length then
            some
              { version := version
                startOffset := startOffset
                endOffset := endOffset
                keyLength := keyLength
                key := (snode.drop NodeKeyIdx).take keyLength
                value := snode.drop (NodeKeyIdx + keyLength) }
          else none

/-! ## Concrete executions

A small store built exactly as the write path builds it: `initRoot`
(src/Node.go:174) produces a pool-reset node, and each write
transaction reads the current root, increments its version by one
(src/Operation.go:36, part_009:149) and runs the recursive operation on
the copy. -/

/-- The version-0 root `initRoot` writes at store creation. -/
def initialRoot : MariINode := resetINode

/-- The version bump a write transaction applies to the loaded root
(`currRoot.Version = currRoot.Version + 1`). -/
def bumpVersion (node : MariINode) : MariINode :=
  node.withFields (node.version + 1) node.bitmap node.leaf node.children

/-- One `Put` transaction at the trie level (src/Operation.go:18):
bump the root version, path-copy the pair in; the updated root copy is
what a successful publication installs. -/
def putOperation (fuel : Nat) (root : MariINode) (key value : List Nat) :
    Option MariINode :=
  putRecursive fuel (bumpVersion root) key value 0

/-- One `Delete` transaction at the trie level (src/Operation.go:264). -/
def deleteOperation (fuel : Nat) (root : MariINode) (key : List Nat) :
    Option MariINode :=
  deleteRecursive fuel (bumpVersion root) key 0

/-- Ascending-key check for a result list (`bytes.Compare` never
returns `1` on consecutive keys). -/
def kvPairsAscending : List KeyValuePair → Bool
  | [] => true
  | [_] => true
  | a :: b :: rest =>
    (bytesCompare a.key b.key != Ordering.gt) && kvPairsAscending (b :: rest)

/-! ## Claims -/

/-- **C1.** Claim: for every sequence of puts, a subsequent get of any
written key returns the value most recently put for that key until a
delete intervenes.  The code violates this: after `put [0x00] [10]`
and `put [0x20] [20]` on a fresh store, `get [0x00]` returns `nil`
(the inner `none`).  `getPosition` skips word 0 of the bitmap whenever
the index lies in word 1 (`subBitmapIndex - 1 > 0` is false for
`subBitmapIndex = 1`, src/Utils.go:64), so the children of indices 0
and 32 both receive dense position 0, the second put shifts the first
child, and the get descends into the wrong child. -/
theorem c1_roundTrip_fails_on_word1_keys :
    ((putOperation 9 initialRoot [0] [10]).bind fun r1 =>
      (putOperation 9 r1 [32] [20]).bind fun r2 =>
        getRecursive 9 r2 [0] 0) = some none := by
  rfl

/-- **C3.** Claim: `range(a,b)` with `a ≤ b` returns pairs sorted
ascending by key, every key in `[a,b]`.  The code violates the
ordering: on the store holding keys `[0x00]` and `[0x20]`, the same
`getPosition` flaw stores the child for index 32 *before* the child
for index 0, and `Range([0x00],[0xC8])` returns the keys in the order
`[0x20], [0x00]` — descending. -/
theorem c3_range_result_unsorted :
    ((putOperation 9 initialRoot [0] [10]).bind fun r1 =>
      (putOperation 9 r1 [32] [20]).map fun r2 =>
        MariTx.range 9 (newTx r2 false) [0] [200] none) =
      some (.ok [⟨2, [32], [20]⟩, ⟨1, [0], [10]⟩]) ∧
    kvPairsAscending [⟨2, [32], [20]⟩, ⟨1, [0], [10]⟩] = false := by
  exact ⟨rfl, rfl⟩

/-- **C4.** Claim: a delete of any key, present or absent, completes
and is reported as succeeded.  The code violates this: `deleteRecursive`
never consults the bitmap before indexing the child array
(src/Operation.go:341–342 read `Children[pos]` unconditionally in the
non-matching branch), so deleting the absent key `[0x00]` on a fresh
(empty) store indexes an empty array and panics (`none` at every
non-zero fuel) instead of returning success. -/
theorem c4_delete_absent_key_panics (fuel : Nat) :
    deleteRecursive (fuel + 1) (bumpVersion initialRoot) [0] 0 = none := by
  rfl

/-- **C5.** Claim: `getPosition` returns the number of set bits
strictly below the index — the popcounts of words `0..(i>>5)-1` plus
the masked popcount of word `i>>5`.  The code violates this for every
index in word 1: with bit 0 of word 0 and bit 1 of word 1 set, the
claimed formula gives position 1 for index 33, but `getPosition`
returns 0 because `subBitmapIndex - 1 > 0` is false when
`subBitmapIndex = 1` (src/Utils.go:64), skipping word 0 entirely. -/
theorem c5_getPosition_skips_word0 :
    getPosition ⟨1, 2, 0, 0, 0, 0, 0, 0⟩ 33 0 = 0 ∧
    specDensePosition ⟨1, 2, 0, 0, 0, 0, 0, 0⟩ 33 = 1 := by
  exact ⟨rfl, rfl⟩

/-- **C10.** Claim: `Iterate` unconditionally computes the level-0
child index as `startKey[0]` (src/Iterate.go:68–71), so an empty start
key is an out-of-range access and `Iterate` does not return normally.
Confirmed: for every root, result bound, minimum version and non-zero
fuel, `iterate` with the empty start key is `none` (the abnormal
result), the failure occurring before any recursion. -/
theorem c10_iterate_empty_start_key (fuel : Nat) (currRoot : MariINode)
    (totalResults : Nat) (minVersion : Option Nat) :
    iterate (fuel + 1) currRoot [] totalResults minVersion = none := by
  rfl

/-! ### Helper lemmas for the bitmap word array -/

theorem wordAt_updateWord_self (b : Bitmap) (s w : Nat) :
    wordAt (updateWord b s w) s = w := by
  match s with
  | 0 | 1 | 2 | 3 | 4 | 5 | 6 => rfl
  | n + 7 =>
    cases n with
    | zero => rfl
    | succ k => rfl

theorem updateWord_updateWord (b : Bitmap) (s w w' : Nat) :
    updateWord (updateWord b s w) s w' = updateWord b s w' := by
  match s with
  | 0 | 1 | 2 | 3 | 4 | 5 | 6 => rfl
  | n + 7 =>
    cases n with
    | zero => rfl
    | succ k => rfl

theorem updateWord_wordAt (b : Bitmap) (s : Nat) :
    updateWord b s (wordAt b s) = b := by
  match s with
  | 0 | 1 | 2 | 3 | 4 | 5 | 6 => rfl
  | n + 7 =>
    cases n with
    | zero => rfl
    | succ k => rfl

theorem and_xor_two_pow (w k : Nat) :
    ((w ^^^ (1 <<< k)) &&& (1 <<< k) != 0) = !(w &&& (1 <<< k) != 0) := by
  have h1 : (1 : Nat) <<< k = 2 ^ k := by
    rw [Nat.shiftLeft_eq, one_mul]
  rw [h1, Nat.and_two_pow, Nat.and_two_pow, Nat.testBit_xor,
    Nat.testBit_two_pow_self]
  cases h : w.testBit k <;>
    simp [h, Nat.pos_iff_ne_zero, Nat.pow_eq_zero]

theorem xor_xor_cancel (w m : Nat) : (w ^^^ m) ^^^ m = w := by
  rw [Nat.xor_assoc, Nat.xor_self, Nat.xor_zero]

/-- **C9.** Claim: `setBit` toggles rather than sets — testing the bit
after a `setBit` yields the negation of the original test, and
`setBit` is an involution (which is exactly what lets `deleteRecursive`
clear an already-set bit at src/Operation.go:360).  Confirmed, for
every bitmap and every index. -/
theorem c9_setBit_is_involutive_toggle (b : Bitmap) (i : Nat) :
    isBitSet (setBit b i) i = !isBitSet b i ∧ setBit (setBit b i) i = b := by
  constructor
  · show (wordAt (updateWord b (i >>> 5)
        (wordAt b (i >>> 5) ^^^ 1 <<< (i &&& 0x1F))) (i >>> 5) &&&
        1 <<< (i &&& 0x1F) != 0) = _
    rw [wordAt_updateWord_self]
    exact and_xor_two_pow _ _
  · show updateWord (updateWord b (i >>> 5)
        (wordAt b (i >>> 5) ^^^ 1 <<< (i &&& 0x1F))) (i >>> 5)
        (wordAt (updateWord b (i >>> 5)
          (wordAt b (i >>> 5) ^^^ 1 <<< (i &&& 0x1F))) (i >>> 5) ^^^
          1 <<< (i &&& 0x1F)) = b
    rw [wordAt_updateWord_self, updateWord_updateWord, xor_xor_cancel,
      updateWord_wordAt]

/-- **C6.** Claim: every successful publication increases the version
word by exactly one — the CAS moves it from the observed `V` to `V+1`,
and publication succeeds only when the path's version equals `V+1`.
Confirmed on `exclusiveWriteMmap` (part_009:790–848): whenever the
publisher reports success, the stored version is the observed version
plus one and the path's version equals it (`V` below the `uint64`
maximum, where "plus one" is meaningful without wrap-around). -/
theorem c6_publication_increments_version
    (isResizing resizeNeeded copyOk : Bool) (cav : Nat)
    (m : MariMetaData) (pv len : Nat)
    (hver : m.version + 1 < U64) (hpv : pv < U64)
    (h : (exclusiveWriteMmapB isResizing resizeNeeded copyOk cav m pv len).1
      = true) :
    (exclusiveWriteMmapB isResizing resizeNeeded copyOk cav m pv len).2.version
      = m.version + 1 ∧ pv = m.version + 1 := by
  unfold exclusiveWriteMmapB at h ⊢
  by_cases hR : isResizing = true
  · simp [hR] at h
  · by_cases hN : resizeNeeded = true
    · simp [hR, hN] at h
    · by_cases hc : cav ≤ m.version
      · simp [hR, hN, hc] at h
      · by_cases hg : m.version = (pv + (U64 - 1)) % U64
        · have hpveq : pv = m.version + 1 := by
            unfold U64 at hg hver hpv
            omega
          have hmod : (m.version + 1 + (U64 - 1)) % U64 = m.version := by
            unfold U64 at hver ⊢
            omega
          by_cases hK : copyOk = true
          · simp [hR, hN, hc, hK, hpveq, hmod]
          · simp [hR, hN, hc, hK, hpveq, hmod] at h
        · simp [hR, hN, hc, hg] at h

/-- Witness for C6 at a concrete publication: version 0, path version
1, copy succeeding. -/
theorem c6_publication_increments_version_witness :
    (exclusiveWriteMmapB false false true 1000000 ⟨0, 24, 100⟩ 1 8).1 = true ∧
    ((exclusiveWriteMmapB false false true 1000000 ⟨0, 24, 100⟩ 1 8).2.version
        = (0 : Nat) + 1 ∧ (1 : Nat) = 0 + 1) :=
  ⟨by decide,
   c6_publication_increments_version false false true 1000000 ⟨0, 24, 100⟩ 1 8
     (by decide) (by decide) (by decide)⟩

/-- **C2 counterexample.** The claim — a failed byte copy after a
successful version CAS rolls back all three metadata words to their
originally observed values, leaving the published metadata unchanged —
fails on the `exclusiveWriteMmap` revision at part_009 lines 571–621:
with observed metadata `(0, 24, 100)` and a 50-byte path, the failed
publication leaves the next-free word at `150`, not `100` (line 606
re-stores `updatedMeta.NextStartOffset` instead of the original). -/
theorem c2_counterexample_next_free_not_rolled_back :
    (exclusiveWriteMmapA false false false ⟨0, 24, 100⟩ 1 50).2 ≠
      (⟨0, 24, 100⟩ : MariMetaData) := by
  decide

/-- **C2 (amended).** When the byte copy of a publication fails after
the version CAS succeeded, the publisher restores the version and the
root offset to their originally observed values and reports failure;
the revision at part_009 lines 790–848 also restores the next-free
offset, leaving the metadata fully unchanged, while the revision at
lines 571–621 leaves the next-free offset at its newly stored value. -/
theorem c2_rollback_on_copy_failure (m : MariMetaData) (pv len cav : Nat)
    (hver : m.version + 1 < U64) (hpv : pv = m.version + 1)
    (hcav : m.version < cav) :
    exclusiveWriteMmapB false false false cav m pv len = (false, m) ∧
    exclusiveWriteMmapA false false false m pv len =
      (false, ⟨m.version, m.rootOffset, (m.nextStartOffset + len) % U64⟩) := by
  subst hpv
  have hmod : (m.version + 1 + (U64 - 1)) % U64 = m.version := by
    unfold U64 at hver ⊢
    omega
  unfold exclusiveWriteMmapA exclusiveWriteMmapB
  simp [hmod, Nat.not_le.mpr hcav]

/-- Witness for C2 at the concrete failed publication of the
counterexample. -/
theorem c2_rollback_on_copy_failure_witness :
    ((0 : Nat) + 1 < U64 ∧ (1 : Nat) = 0 + 1 ∧ (0 : Nat) < 1000000) ∧
    (exclusiveWriteMmapB false false false 1000000 ⟨0, 24, 100⟩ 1 50 =
        (false, ⟨0, 24, 100⟩) ∧
      exclusiveWriteMmapA false false false ⟨0, 24, 100⟩ 1 50 =
        (false, ⟨0, 24, (100 + 50) % U64⟩)) :=
  ⟨⟨by decide, by decide, by decide⟩,
   c2_rollback_on_copy_failure ⟨0, 24, 100⟩ 1 50 1000000
     (by decide) (by decide) (by decide)⟩

/-- **C7 counterexample.** The claim — the value's length equals
`end_offset - start_offset - 24 - key_length` — fails on the leaf
`newLeafNode [7] [9] 0`: its serialized frame is 28 bytes
(26-byte header, 1-byte key, 1-byte value), so `determineEndOffsetLNode`
yields 27 and the claimed formula gives `27 - 0 - 24 - 1 = 2`, but the
value has length 1. -/
theorem c7_counterexample_value_length_formula :
    (newLeafNode [7] [9] 0).value.length ≠
      determineEndOffsetLNode (newLeafNode [7] [9] 0) -
        (newLeafNode [7] [9] 0).startOffset - 24 -
        (newLeafNode [7] [9] 0).keyLength := by
  decide

/-- **C7 (amended).** In a serialized leaf node the value occupies the
remaining bytes after the key, and its length equals
`end_offset - start_offset - 25 - key_length`: the header before the
key is 26 bytes (`NodeKeyIdx`, three u64 offsets plus the u16 key
length) and `end_offset` is inclusive, so
`end = start + 26 + key_length + len(value) - 1`
(src/Node.go:157–164), and `DeserializeLNode` takes the value as
everything from byte `26 + key_length` on (src/Serialize.go:113). -/
theorem c7_value_is_remainder_of_frame (l : MariLNode)
    (hk : l.key.length ≠ 0) (hkl : l.keyLength = l.key.length) :
    l.value.length =
      determineEndOffsetLNode l - l.startOffset - 25 - l.keyLength ∧
    (serializeLNode l).drop (NodeKeyIdx + l.keyLength) = l.value := by
  constructor
  · unfold determineEndOffsetLNode NodeKeyIdx
    rw [if_pos hk]
    omega
  · have h26 : (serializeUint64 l.version ++ serializeUint64 l.startOffset ++
        serializeUint64 (determineEndOffsetLNode l) ++
        serializeUint16 l.keyLength).length = 26 := by
      simp [serializeUint64, serializeUint16]
    have hassoc : serializeLNode l =
        ((serializeUint64 l.version ++ serializeUint64 l.startOffset ++
          serializeUint64 (determineEndOffsetLNode l) ++
          serializeUint16 l.keyLength) ++ l.key) ++ l.value := by
      simp [serializeLNode, List.append_assoc]
    have hlen : NodeKeyIdx + l.keyLength =
        ((serializeUint64 l.version ++ serializeUint64 l.startOffset ++
          serializeUint64 (determineEndOffsetLNode l) ++
          serializeUint16 l.keyLength) ++ l.key).length := by
      rw [List.length_append, h26, hkl]
      rfl
    rw [hassoc, hlen, List.drop_left]

/-- Witness for C7 at a concrete leaf: key `[1,2]`, value `[3,4,5]`,
start offset 100. -/
theorem c7_value_is_remainder_of_frame_witness :
    ((⟨5, 100, 0, 2, [1, 2], [3, 4, 5]⟩ : MariLNode).key.length ≠ 0 ∧
      (⟨5, 100, 0, 2, [1, 2], [3, 4, 5]⟩ : MariLNode).keyLength =
        (⟨5, 100, 0, 2, [1, 2], [3, 4, 5]⟩ : MariLNode).key.length) ∧
    ((⟨5, 100, 0, 2, [1, 2], [3, 4, 5]⟩ : MariLNode).value.length =
        determineEndOffsetLNode ⟨5, 100, 0, 2, [1, 2], [3, 4, 5]⟩ -
          (⟨5, 100, 0, 2, [1, 2], [3, 4, 5]⟩ : MariLNode).startOffset - 25 -
          (⟨5, 100, 0, 2, [1, 2], [3, 4, 5]⟩ : MariLNode).keyLength ∧
      (serializeLNode ⟨5, 100, 0, 2, [1, 2], [3, 4, 5]⟩).drop
          (NodeKeyIdx + (⟨5, 100, 0, 2, [1, 2], [3, 4, 5]⟩ : MariLNode).keyLength) =
        (⟨5, 100, 0, 2, [1, 2], [3, 4, 5]⟩ : MariLNode).value) :=
  ⟨⟨by decide, by decide⟩,
   c7_value_is_remainder_of_frame ⟨5, 100, 0, 2, [1, 2], [3, 4, 5]⟩
     (by decide) (by decide)⟩

/-- **C8.** Claim: a put or a delete attempted inside a view
(read-only) transaction returns an error to the caller and publishes no
change.  Confirmed: on any transaction with `isWrite = false` — which
is what `ViewTx` creates (part_009:118) — both `Put` and `Delete`
return the source's error verbatim before touching the working root,
and a view transaction whose body attempts the put surfaces that very
error; `ViewTx` contains no publication step at all (part_009:109–123
never calls `exclusiveWriteMmap`), so the store is unchanged. -/
theorem c8_view_tx_rejects_writes (fuel : Nat) (tx : MariTx)
    (key value : List Nat) (currRoot : MariINode)
    (h : tx.isWrite = false) :
    tx.put fuel key value =
      .error "attempting to perform a write in a read only transaction, use tx.UpdateTx" ∧
    tx.delete fuel key =
      .error "attempting to perform a write in a read only transaction, use tx.UpdateTx" ∧
    viewTx currRoot (fun t => (t.put fuel key value).map fun _ => ()) =
      .error "attempting to perform a write in a read only transaction, use tx.UpdateTx" := by
  refine ⟨?_, ?_, ?_⟩
  · unfold MariTx.put
    rw [h]
    rfl
  · unfold MariTx.delete
    rw [h]
    rfl
  · rfl

/-- Witness for C8 on the read-only transaction `ViewTx` builds over
the initial root. -/
theorem c8_view_tx_rejects_writes_witness :
    (newTx initialRoot false).isWrite = false ∧
    ((newTx initialRoot false).put 9 [1] [2] =
        .error "attempting to perform a write in a read only transaction, use tx.UpdateTx" ∧
      (newTx initialRoot false).delete 9 [1] =
        .error "attempting to perform a write in a read only transaction, use tx.UpdateTx" ∧
      viewTx initialRoot (fun t => (t.put 9 [1] [2]).map fun _ => ()) =
        .error "attempting to perform a write in a read only transaction, use tx.UpdateTx") :=
  ⟨rfl, c8_view_tx_rejects_writes 9 (newTx initialRoot false) [1] [2]
    initialRoot rfl⟩

end Mari
